import Mathlib

/-!
Shallow embedding of the `log_watcher` repository (files `utils.py`,
`watcher.py`, `log_watcher.py`) and proofs about it.

Modelling conventions:
* Python strings are `List Char`; metric names stay `String`.
* Python `float` values are modelled as exact rationals (`Rat`); every
  numeric literal the program parses is a finite decimal, so the order
  and equality facts proved here transfer to the float semantics.
* The regular expressions appearing in the source all have the shape
  `literal [:\s]+ ([class]+)` with a single capture group whose class
  is `[\d\.]` or `\d`; patterns are embedded as that shape (`SMPattern`)
  together with a leftmost greedy backtracking search mirroring
  `re.search`.
* Fallible Python code (the `float(...)` conversion that can raise
  `ValueError`) is embedded in `Except PyError`.
* File input and the network are external collaborators: one loop cycle
  receives the file-read outcome, the current time and the delivery
  outcome as an explicit `CycleInput`.
-/

/-- ASCII lowercasing of one character, as `str.lower()` acts on the
ASCII range (the only characters the embedded lines use). -/
def asciiLowerChar (c : Char) : Char :=
  if 'A' ≤ c ∧ c ≤ 'Z' then Char.ofNat (c.toNat + 32) else c

/-- `str.lower()` on a whole line. -/
def asciiLower (l : List Char) : List Char := l.map asciiLowerChar

/-- Python whitespace (the characters stripped by `float()` and matched
by the regex class `\s`, restricted to ASCII). -/
def isPyWs (c : Char) : Bool :=
  c == ' ' || c == '\t' || c == '\n' || c == '\r' ||
    c == Char.ofNat 11 || c == Char.ofNat 12

/-- Numeric value of a digit string, most significant digit first. -/
def digitsVal (l : List Char) : Nat :=
  l.foldl (fun a c => 10 * a + (c.toNat - 48)) 0

/-- Strip leading and trailing Python whitespace (what `float()` does
before parsing the literal). -/
def stripWs (l : List Char) : List Char :=
  (((l.dropWhile isPyWs).reverse).dropWhile isPyWs).reverse

/-- Exponent digits (with optional sign) of a Python float literal;
`none` when the remainder is not exactly `[+-]?digits`. -/
def parseSignedExp (m : Rat) (r : List Char) : Option Rat :=
  let (neg, r2) : Bool × List Char :=
    match r with
    | '+' :: t => (false, t)
    | '-' :: t => (true, t)
    | t => (false, t)
  let ds := r2.takeWhile Char.isDigit
  if ds.isEmpty || ds.length ≠ r2.length then none
  else some (if neg then m / 10 ^ digitsVal ds else m * 10 ^ digitsVal ds)

/-- Optional exponent part of a Python float literal. -/
def parseExpPart (m : Rat) (r : List Char) : Option Rat :=
  match r with
  | [] => some m
  | 'e' :: r2 => parseSignedExp m r2
  | 'E' :: r2 => parseSignedExp m r2
  | _ => none

/-- Unsigned body of a Python float literal:
`digits [. digits?] exp?` or `. digits exp?`. -/
def pyFloatBody (t : List Char) : Option Rat :=
  let ip := t.takeWhile Char.isDigit
  let r1 := t.drop ip.length
  match r1 with
  | '.' :: r2 =>
      let fp := r2.takeWhile Char.isDigit
      let r3 := r2.drop fp.length
      if ip.isEmpty && fp.isEmpty then none
      else parseExpPart ((digitsVal ip : Rat) + (digitsVal fp : Rat) / 10 ^ fp.length) r3
  | _ => if ip.isEmpty then none else parseExpPart (digitsVal ip) r1

/-- Python's `float(s)` on the strings this program can capture:
strip whitespace, optional sign, numeric body; `none` models a raised
`ValueError`.  (`inf`/`nan` spellings need letters, which no capture
class of the source contains, so they are not represented.) -/
def pyFloat (s : List Char) : Option Rat :=
  match stripWs s with
  | [] => none
  | c :: rest =>
      if c = '+' then pyFloatBody rest
      else if c = '-' then (pyFloatBody rest).map Neg.neg
      else pyFloatBody (c :: rest)

/-- The character classes occurring in the source patterns:
`\d`, `[\d\.]` and `[:\s]`. -/
inductive CharClass
  | digit
  | digitDot
  | colonSpace
deriving DecidableEq, Repr

/-- Membership in a character class. -/
def CharClass.mem : CharClass → Char → Bool
  | .digit, c => c.isDigit
  | .digitDot, c => c.isDigit || c == '.'
  | .colonSpace, c => c == ':' || isPyWs c

/-- The pattern shape used by every regex in the source:
a literal word, then `sep+` (greedy), then one capture group `(cap+)`
(greedy), e.g. `loss[:\s]+([\d\.]+)`. -/
structure SMPattern where
  lit : List Char
  sep : CharClass
  cap : CharClass
deriving DecidableEq, Repr

/-- Greedy backtracking after the literal: try separator-run lengths
from `k` down to `1`; at the first length with at least one capture
character following, return the maximal capture run.  This mirrors a
greedy `sep+` giving characters back one at a time so that `(cap+)`
can match. -/
def SMPattern.trySep (cap : CharClass) (rest : List Char) : Nat → Option (List Char)
  | 0 => none
  | k + 1 =>
      let capRun := (rest.drop (k + 1)).takeWhile cap.mem
      if capRun.isEmpty then SMPattern.trySep cap rest k else some capRun

/-- Attempt to match the pattern anchored at the start of `s`,
returning the text of the capture group. -/
def SMPattern.matchAt (p : SMPattern) (s : List Char) : Option (List Char) :=
  if p.lit.isPrefixOf s then
    let rest := s.drop p.lit.length
    SMPattern.trySep p.cap rest (rest.takeWhile p.sep.mem).length
  else none

/-- `re.search`: try every start position left to right and return the
capture group of the leftmost match. -/
def SMPattern.search (p : SMPattern) : List Char → Option (List Char)
  | [] => p.matchAt []
  | c :: cs =>
      match p.matchAt (c :: cs) with
      | some g => some g
      | none => SMPattern.search p cs

/-- `utils.MetricResult`: container for one parsed metric observation. -/
structure MetricResult where
  name : String
  value : Rat
  epoch : Option Int := none
  step : Option Int := none
  extra_info : Option (List (String × Option Rat)) := none
deriving DecidableEq, Repr

/-- The only Python exception the embedded code can raise
(`float()` on malformed text). -/
inductive PyError
  | valueError
deriving DecidableEq, Repr

/-- `utils.StandardMetricParser`: one metric name, one pattern, one
append-only series. -/
structure StandardMetricParser where
  metric_name : String
  pattern : SMPattern
  values : List Rat
deriving DecidableEq, Repr

/-- `StandardMetricParser.parse`: search the lowered line; on a match
convert the capture with `float` (which may raise), append to the
series and return a result; on no match return `None`. -/
def StandardMetricParser.parse (p : StandardMetricParser) (line : List Char) :
    Except PyError (Option MetricResult × StandardMetricParser) :=
  match p.pattern.search (asciiLower line) with
  | some g =>
      match pyFloat g with
      | some v =>
          .ok (some { name := p.metric_name, value := v },
               { p with values := p.values ++ [v] })
      | none => .error .valueError
  | none => .ok (none, p)

/-- `StandardMetricParser.get_plot_data`. -/
def StandardMetricParser.get_plot_data (p : StandardMetricParser) :
    List (String × List Rat) :=
  [(p.metric_name, p.values)]

/-- The four patterns of `utils.WERMetricParser.__init__`, in the
insertion order of its `patterns` dict. -/
def werPat : SMPattern := { lit := "wer".toList, sep := .colonSpace, cap := .digitDot }

/-- Pattern `substitutions[:\s]+(\d+)`. -/
def subPat : SMPattern := { lit := "substitutions".toList, sep := .colonSpace, cap := .digit }

/-- Pattern `deletions[:\s]+(\d+)`. -/
def delPat : SMPattern := { lit := "deletions".toList, sep := .colonSpace, cap := .digit }

/-- Pattern `insertions[:\s]+(\d+)`. -/
def insPat : SMPattern := { lit := "insertions".toList, sep := .colonSpace, cap := .digit }

/-- `utils.WERMetricParser`: the composite parser's four series. -/
structure WERMetricParser where
  wer_values : List Rat
  substitutions : List Rat
  deletions : List Rat
  insertions : List Rat
deriving DecidableEq, Repr

/-- A fresh `WERMetricParser()` (all series empty). -/
def WERMetricParser.init : WERMetricParser :=
  { wer_values := [], substitutions := [], deletions := [], insertions := [] }

/-- One step of the pattern loop in `WERMetricParser.parse`: search one
pattern on the lowered line and, on a match, convert the capture (this
is where a malformed capture raises). -/
def matchFloat (pat : SMPattern) (l : List Char) : Except PyError (Option Rat) :=
  match pat.search l with
  | some g =>
      match pyFloat g with
      | some v => .ok (some v)
      | none => .error .valueError
  | none => .ok none

/-- `WERMetricParser.parse`: run the four patterns in dict order
(wer, sub, del, ins); if the primary `wer` value is present, append it
and any present sub-counts to their series and return a result carrying
the sub-counts as `extra_info`; otherwise return `None` untouched. -/
def WERMetricParser.parse (p : WERMetricParser) (line : List Char) :
    Except PyError (Option MetricResult × WERMetricParser) :=
  match matchFloat werPat (asciiLower line) with
  | .error e => .error e
  | .ok owe =>
      match matchFloat subPat (asciiLower line) with
      | .error e => .error e
      | .ok osub =>
          match matchFloat delPat (asciiLower line) with
          | .error e => .error e
          | .ok odel =>
              match matchFloat insPat (asciiLower line) with
              | .error e => .error e
              | .ok oins =>
                  match owe with
                  | some w =>
                      .ok (some { name := "WER", value := w,
                                  extra_info := some
                                    [("substitutions", osub),
                                     ("deletions", odel),
                                     ("insertions", oins)] },
                           { wer_values := p.wer_values ++ [w],
                             substitutions := p.substitutions ++ osub.toList,
                             deletions := p.deletions ++ odel.toList,
                             insertions := p.insertions ++ oins.toList })
                  | none => .ok (none, p)

/-- `WERMetricParser.get_plot_data`: always exposes the `WER` series,
and each sub-count series only when non-empty. -/
def WERMetricParser.get_plot_data (p : WERMetricParser) :
    List (String × List Rat) :=
  [("WER", p.wer_values)]
    ++ (if p.substitutions.isEmpty then [] else [("Substitutions", p.substitutions)])
    ++ (if p.deletions.isEmpty then [] else [("Deletions", p.deletions)])
    ++ (if p.insertions.isEmpty then [] else [("Insertions", p.insertions)])

/-- The closed set of `BaseMetricParser` implementations in the source. -/
inductive MetricParser
  | std : StandardMetricParser → MetricParser
  | wer : WERMetricParser → MetricParser
deriving DecidableEq, Repr

/-- Dynamic dispatch of `parse`. -/
def MetricParser.parse : MetricParser → List Char →
    Except PyError (Option MetricResult × MetricParser)
  | .std p, line =>
      match p.parse line with
      | .ok (r, p') => .ok (r, .std p')
      | .error e => .error e
  | .wer p, line =>
      match p.parse line with
      | .ok (r, p') => .ok (r, .wer p')
      | .error e => .error e

/-- Dynamic dispatch of `get_plot_data`. -/
def MetricParser.get_plot_data : MetricParser → List (String × List Rat)
  | .std p => p.get_plot_data
  | .wer p => p.get_plot_data

/-- Whether any pattern of the parser matches the (lowered) line;
"no pattern matches" in the claims is this being `false`. -/
def MetricParser.matchesAny : MetricParser → List Char → Bool
  | .std p, line => (p.pattern.search (asciiLower line)).isSome
  | .wer _, line =>
      (werPat.search (asciiLower line)).isSome
        || (subPat.search (asciiLower line)).isSome
        || (delPat.search (asciiLower line)).isSome
        || (insPat.search (asciiLower line)).isSome

/-- `utils.MetricPluginManager`: the ordered registry. -/
structure MetricPluginManager where
  parsers : List MetricParser
deriving DecidableEq, Repr

/-- `MetricPluginManager.add_parser`. -/
def MetricPluginManager.add_parser (m : MetricPluginManager) (p : MetricParser) :
    MetricPluginManager :=
  { parsers := m.parsers ++ [p] }

/-- The loop body of `MetricPluginManager.parse_line`: feed the line to
each parser in registration order, collecting non-`None` results; a
raised exception propagates. -/
def parseParsers (line : List Char) :
    List MetricParser → Except PyError (List MetricResult × List MetricParser)
  | [] => .ok ([], [])
  | p :: ps =>
      match p.parse line with
      | .error e => .error e
      | .ok (r, p') =>
          match parseParsers line ps with
          | .error e => .error e
          | .ok (rs, ps') => .ok (r.toList ++ rs, p' :: ps')

/-- `MetricPluginManager.parse_line`. -/
def MetricPluginManager.parse_line (m : MetricPluginManager) (line : List Char) :
    Except PyError (List MetricResult × MetricPluginManager) :=
  match parseParsers line m.parsers with
  | .ok (rs, ps) => .ok (rs, { parsers := ps })
  | .error e => .error e

/-- `plot_data[name] = values` on a Python dict modelled as an
association list: overwrite in place if the key exists, else append. -/
def dictInsert (d : List (String × List Rat)) (k : String) (v : List Rat) :
    List (String × List Rat) :=
  match d with
  | [] => [(k, v)]
  | (k', v') :: rest =>
      if k' = k then (k, v) :: rest else (k', v') :: dictInsert rest k v

/-- `MetricPluginManager.get_all_plot_data`: merge every parser's plot
data into one dict; a later parser's entry for a colliding name
replaces the earlier one. -/
def MetricPluginManager.get_all_plot_data (m : MetricPluginManager) :
    List (String × List Rat) :=
  ((m.parsers.map MetricParser.get_plot_data).flatten).foldl
    (fun d kv => dictInsert d kv.1 kv.2) []

/-- Pattern `loss[:\s]+([\d\.]+)`. -/
def lossPat : SMPattern := { lit := "loss".toList, sep := .colonSpace, cap := .digitDot }

/-- Pattern `accuracy[:\s]+([\d\.]+)`. -/
def accuracyPat : SMPattern := { lit := "accuracy".toList, sep := .colonSpace, cap := .digitDot }

/-- Pattern `val_loss[:\s]+([\d\.]+)`. -/
def valLossPat : SMPattern := { lit := "val_loss".toList, sep := .colonSpace, cap := .digitDot }

/-- Pattern `val_accuracy[:\s]+([\d\.]+)`. -/
def valAccuracyPat : SMPattern := { lit := "val_accuracy".toList, sep := .colonSpace, cap := .digitDot }

/-- `log_watcher.ModularMLLogParser`: wraps a plugin manager. -/
structure ModularMLLogParser where
  plugin_manager : MetricPluginManager
deriving DecidableEq, Repr

/-- `ModularMLLogParser.__init__` with `_setup_default_parsers`:
the four standard parsers then the WER parser, all with empty series. -/
def ModularMLLogParser.init : ModularMLLogParser :=
  { plugin_manager :=
      { parsers :=
          [ .std { metric_name := "Loss", pattern := lossPat, values := [] },
            .std { metric_name := "Accuracy", pattern := accuracyPat, values := [] },
            .std { metric_name := "Val_Loss", pattern := valLossPat, values := [] },
            .std { metric_name := "Val_Accuracy", pattern := valAccuracyPat, values := [] },
            .wer WERMetricParser.init ] } }

/-- `ModularMLLogParser.add_custom_metric`. -/
def ModularMLLogParser.add_custom_metric (mp : ModularMLLogParser)
    (name : String) (pattern : SMPattern) : ModularMLLogParser :=
  { plugin_manager := mp.plugin_manager.add_parser
      (.std { metric_name := name, pattern := pattern, values := [] }) }

/-- `ModularMLLogParser.parse_line`. -/
def ModularMLLogParser.parse_line (mp : ModularMLLogParser) (line : List Char) :
    Except PyError (List MetricResult × ModularMLLogParser) :=
  match mp.plugin_manager.parse_line line with
  | .ok (rs, m') => .ok (rs, { plugin_manager := m' })
  | .error e => .error e

/-- `ModularMLLogParser.generate_training_plots`: always writes the main
plot; writes the WER plot exactly when the merged plot data has a `WER`
key.  Returns the saved paths in order. -/
def ModularMLLogParser.generate_training_plots (mp : ModularMLLogParser)
    (save_dir : String) : List String :=
  let plot_data := mp.plugin_manager.get_all_plot_data
  let main_plot_path := save_dir ++ "/main_metrics.png"
  if (plot_data.lookup "WER").isSome then
    [main_plot_path, save_dir ++ "/wer_progress.png"]
  else
    [main_plot_path]

/-- Python's `needle in hay` on strings. -/
def strContains (needle : List Char) : List Char → Bool
  | [] => needle.isEmpty
  | c :: t => needle.isPrefixOf (c :: t) || strContains needle t

/-- Python's `min` on a list (the source only calls it on non-empty
series; the empty-list default is never reached there). -/
def pyMin : List Rat → Rat
  | [] => 0
  | x :: xs => xs.foldl min x

/-- Python's `max` on a list (same proviso as `pyMin`). -/
def pyMax : List Rat → Rat
  | [] => 0
  | x :: xs => xs.foldl max x

/-- `best = min(values) if 'loss' in metric_name.lower() else max(values)`
from `ModularMLLogWatcher.format_email_body`. -/
def bestValue (metric_name : String) (values : List Rat) : Rat :=
  if strContains "loss".toList (asciiLower metric_name.toList) then pyMin values
  else pyMax values

/-- The metrics table built by `ModularMLLogWatcher.format_email_body`:
one row `(name, current, best)` per metric with a non-empty series, in
plot-data order; metrics with an empty series are skipped. -/
def emailMetricsSummary (plot_data : List (String × List Rat)) :
    List (String × Rat × Rat) :=
  plot_data.filterMap fun kv =>
    match kv.2.getLast? with
    | some current => some (kv.1, current, bestValue kv.1 kv.2)
    | none => none

/-- The mutable state of `watcher.MLLogWatcher` that the polling loop
touches: the read cursor, the pending buffer, the email schedule and
(through `ModularMLLogWatcher`) the parser registry. -/
structure WatcherState where
  last_position : Nat
  buffer : List (List Char)
  last_email_time : Rat
  email_interval : Rat
  manager : MetricPluginManager
deriving DecidableEq, Repr

/-- The outcome of one `open`/`seek`/`read` of the log file: the full
current file content, or an I/O error. -/
def FileRead := Except Unit (List Char)

/-- `MLLogWatcher.check_file_changes`: seek to the cursor, read to the
end; on new content advance the cursor to end-of-file and append the
text to the buffer; on empty read or any I/O error report no new
content and leave the state untouched. -/
def MLLogWatcher.check_file_changes (fr : FileRead) (st : WatcherState) :
    Option (List Char) × WatcherState :=
  match fr with
  | .error _ => (none, st)
  | .ok content =>
      let newContent := content.drop st.last_position
      if newContent.isEmpty then (none, st)
      else
        (some newContent,
         { st with last_position := content.length,
                   buffer := st.buffer ++ [newContent] })

/-- `MLLogWatcher.should_send_email`:
`time.time() - last_email_time >= email_interval`. -/
def MLLogWatcher.should_send_email (st : WatcherState) (now : Rat) : Bool :=
  st.email_interval ≤ now - st.last_email_time

/-- `MLLogWatcher.process_buffer` as the subclass actually runs it:
the base-class body is `pass` and `ModularMLLogWatcher` does not
override it, so it changes nothing. -/
def MLLogWatcher.process_buffer (st : WatcherState) : WatcherState := st

/-- The external inputs consumed by one iteration of `watch`:
the file-read outcome, whether `send_email` would report success,
and the current time. -/
structure CycleInput where
  fileRead : FileRead
  sendOk : Bool
  now : Rat

/-- One non-interrupted iteration of `MLLogWatcher.watch`: poll; on new
content run `process_buffer`; if the buffer is non-empty and the report
is due, attempt delivery, clearing the buffer and marking the send time
only on success. -/
def MLLogWatcher.watchStep (st : WatcherState) (inp : CycleInput) : WatcherState :=
  let polled := MLLogWatcher.check_file_changes inp.fileRead st
  let st1 :=
    match polled.1 with
    | some _ => MLLogWatcher.process_buffer polled.2
    | none => polled.2
  if !st1.buffer.isEmpty && MLLogWatcher.should_send_email st1 inp.now then
    if inp.sendOk then { st1 with buffer := [], last_email_time := inp.now }
    else st1
  else st1

/-- Repeated `parse` calls on one `WERMetricParser`, propagating a
raised exception; used to state invariants over any sequence of calls. -/
def runWER : WERMetricParser → List (List Char) → Except PyError WERMetricParser
  | p, [] => .ok p
  | p, line :: rest =>
      match p.parse line with
      | .ok (_, p') => runWER p' rest
      | .error e => .error e

/-- A fresh `StandardMetricParser('Loss', r'loss[:\s]+([\d\.]+)')`,
used as a concrete instance in witnesses. -/
def lossSMP : StandardMetricParser :=
  { metric_name := "Loss", pattern := lossPat, values := [] }

/-- A registry state with the series of §8's summary scenario, used as
a concrete instance in witnesses. -/
def summaryDemoManager : MetricPluginManager :=
  { parsers :=
      [ .std { metric_name := "Loss", pattern := lossPat,
               values := [9/10, 2/5, 3/5] },
        .std { metric_name := "Accuracy", pattern := accuracyPat,
               values := [1/2, 4/5, 7/10] },
        .std { metric_name := "Val_Loss", pattern := valLossPat, values := [] } ] }

/-- The watcher state right after `ModularMLLogWatcher.__init__`
(cursor 0, empty buffer, default parsers), with report interval 30. -/
def freshWatcherState : WatcherState :=
  { last_position := 0, buffer := [], last_email_time := 0,
    email_interval := 30, manager := ModularMLLogParser.init.plugin_manager }

/-- A cycle in which the log file now holds one loss line and no report
is due yet. -/
def lossCycleInput : CycleInput :=
  { fileRead := .ok "epoch 1 loss: 0.532".toList, sendOk := false, now := 10 }

/-- A watcher state with one pending buffered line and a report overdue. -/
def dueWatcherState : WatcherState :=
  { last_position := 10, buffer := ["loss: 0.5\n".toList], last_email_time := 0,
    email_interval := 30, manager := ModularMLLogParser.init.plugin_manager }

/-- A cycle with no file growth, a due report and a delivery that
succeeds. -/
def dueCycleInput : CycleInput :=
  { fileRead := .ok "loss: 0.5\n".toList, sendOk := true, now := 30 }

/-- Keys of a plot-data dict, in insertion order. -/
def dictKeys (d : List (String × List Rat)) : List String := d.map Prod.fst

theorem dropWhile_eq_self_of_forall {α : Type} {p : α → Bool} {l : List α}
    (h : ∀ c ∈ l, p c = false) : l.dropWhile p = l := by
  cases l with
  | nil => rfl
  | cons a t =>
      exact List.dropWhile_cons_of_neg (by simp [h a (List.mem_cons_self a t)])

theorem stripWs_eq_self {l : List Char} (h : ∀ c ∈ l, isPyWs c = false) :
    stripWs l = l := by
  unfold stripWs
  rw [dropWhile_eq_self_of_forall h,
      dropWhile_eq_self_of_forall (fun c hc => h c (List.mem_reverse.mp hc)),
      List.reverse_reverse]

theorem isDigit_not_pyWs {c : Char} (h : c.isDigit = true) : isPyWs c = false := by
  by_contra hw
  rw [Bool.not_eq_false] at hw
  simp only [isPyWs, Bool.or_eq_true, beq_iff_eq] at hw
  rcases hw with ((((rfl | rfl) | rfl) | rfl) | rfl) | rfl <;> simp at h

theorem pyFloat_digits {l : List Char} (hne : l ≠ [])
    (hd : ∀ c ∈ l, c.isDigit = true) : pyFloat l = some (digitsVal l) := by
  have hs : stripWs l = l := stripWs_eq_self (fun c hc => isDigit_not_pyWs (hd c hc))
  obtain ⟨c, t, rfl⟩ := List.exists_cons_of_ne_nil hne
  have hc : c.isDigit = true := hd c (List.mem_cons_self _ _)
  have hcp : ¬(c = '+') := by rintro rfl; simp at hc
  have hcm : ¬(c = '-') := by rintro rfl; simp at hc
  have ht : (c :: t).takeWhile Char.isDigit = c :: t :=
    List.takeWhile_eq_self_iff.mpr hd
  unfold pyFloat
  rw [hs]
  simp only [if_neg hcp, if_neg hcm]
  unfold pyFloatBody
  simp only [ht, List.drop_length]
  simp [parseExpPart]

theorem trySep_capture {cap : CharClass} {rest g : List Char} :
    ∀ {k : Nat}, SMPattern.trySep cap rest k = some g →
      g ≠ [] ∧ ∀ c ∈ g, cap.mem c = true := by
  intro k
  induction k with
  | zero => intro h; simp [SMPattern.trySep] at h
  | succ k ih =>
      intro h
      rw [SMPattern.trySep] at h
      by_cases hcr : ((rest.drop (k + 1)).takeWhile cap.mem).isEmpty
      · simp only [hcr, if_true] at h
        exact ih h
      · simp only [hcr, if_false] at h
        obtain rfl : (rest.drop (k + 1)).takeWhile cap.mem = g := by
          exact Option.some.inj h
        refine ⟨?_, fun c hc => List.mem_takeWhile_imp hc⟩
        intro hnil
        rw [hnil] at hcr
        exact hcr rfl

theorem matchAt_capture {p : SMPattern} {s g : List Char}
    (h : p.matchAt s = some g) : g ≠ [] ∧ ∀ c ∈ g, p.cap.mem c = true := by
  unfold SMPattern.matchAt at h
  by_cases hp : p.lit.isPrefixOf s
  · simp only [hp, if_true] at h
    exact trySep_capture h
  · simp [hp] at h

theorem search_capture {p : SMPattern} :
    ∀ {s g : List Char}, p.search s = some g →
      g ≠ [] ∧ ∀ c ∈ g, p.cap.mem c = true := by
  intro s
  induction s with
  | nil => intro g h; rw [SMPattern.search] at h; exact matchAt_capture h
  | cons c cs ih =>
      intro g h
      rw [SMPattern.search] at h
      cases hm : p.matchAt (c :: cs) with
      | some g' => rw [hm] at h; cases Option.some.inj h; exact matchAt_capture hm
      | none => rw [hm] at h; exact ih h

theorem matchFloat_digit_ok (pat : SMPattern) (hcap : pat.cap = .digit)
    (l : List Char) : ∃ o, matchFloat pat l = .ok o := by
  unfold matchFloat
  cases hsearch : pat.search l with
  | none => exact ⟨none, rfl⟩
  | some g =>
      obtain ⟨hne, hmem⟩ := search_capture hsearch
      have hdig : ∀ c ∈ g, c.isDigit = true := by
        intro c hc
        have := hmem c hc
        rw [hcap] at this
        simpa [CharClass.mem] using this
      exact ⟨some (digitsVal g), by simp [pyFloat_digits hne hdig]⟩

theorem mem_dictKeys_dictInsert {d : List (String × List Rat)} {k x : String}
    {v : List Rat} :
    x ∈ dictKeys (dictInsert d k v) ↔ x = k ∨ x ∈ dictKeys d := by
  induction d with
  | nil => simp [dictInsert, dictKeys]
  | cons kv rest ih =>
      obtain ⟨k', v'⟩ := kv
      by_cases h : k' = k
      · subst h; simp [dictInsert, dictKeys]
      · simp only [dictInsert, if_neg h, dictKeys, List.map_cons, List.mem_cons]
        rw [show (dictInsert rest k v).map Prod.fst = dictKeys (dictInsert rest k v) from rfl,
            show rest.map Prod.fst = dictKeys rest from rfl] at *
        constructor
        · rintro (rfl | hx)
          · tauto
          · rcases ih.mp hx with rfl | hx <;> tauto
        · rintro (rfl | rfl | hx)
          · right; exact ih.mpr (Or.inl rfl)
          · left; rfl
          · right; exact ih.mpr (Or.inr hx)

theorem dictKeys_nodup_dictInsert {d : List (String × List Rat)} {k : String}
    {v : List Rat} (h : (dictKeys d).Nodup) :
    (dictKeys (dictInsert d k v)).Nodup := by
  induction d with
  | nil => simp [dictInsert, dictKeys]
  | cons kv rest ih =>
      obtain ⟨k', v'⟩ := kv
      simp only [dictKeys, List.map_cons, List.nodup_cons] at h
      by_cases hk : k' = k
      · subst hk
        simpa [dictInsert, dictKeys, List.nodup_cons] using h
      · simp only [dictInsert, if_neg hk, dictKeys, List.map_cons, List.nodup_cons]
        refine ⟨?_, ih h.2⟩
        intro hmem
        rcases mem_dictKeys_dictInsert.mp hmem with rfl | hx
        · exact hk rfl
        · exact h.1 hx

theorem dict_nodup_values_eq {d : List (String × List Rat)}
    (hn : (dictKeys d).Nodup) {k : String} {v1 v2 : List Rat}
    (h1 : (k, v1) ∈ d) (h2 : (k, v2) ∈ d) : v1 = v2 := by
  induction d with
  | nil => cases h1
  | cons kv rest ih =>
      obtain ⟨k', v'⟩ := kv
      simp only [dictKeys, List.map_cons, List.nodup_cons] at hn
      rcases List.mem_cons.mp h1 with he1 | hm1 <;>
        rcases List.mem_cons.mp h2 with he2 | hm2
      · cases he1; cases he2; rfl
      · cases he1
        exact absurd (List.mem_map_of_mem Prod.fst hm2) hn.1
      · cases he2
        exact absurd (List.mem_map_of_mem Prod.fst hm1) hn.1
      · exact ih hn.2 hm1 hm2

theorem lookup_isSome_iff_mem_dictKeys {d : List (String × List Rat)} {k : String} :
    (d.lookup k).isSome = true ↔ k ∈ dictKeys d := by
  induction d with
  | nil => simp [dictKeys]
  | cons kv rest ih =>
      obtain ⟨k', v'⟩ := kv
      by_cases h : k' = k
      · subst h; simp [List.lookup, dictKeys]
      · have hbeq : (k == k') = false := beq_eq_false_iff_ne.mpr (Ne.symm h)
        simp only [List.lookup, hbeq, dictKeys, List.map_cons, List.mem_cons]
        rw [show rest.map Prod.fst = dictKeys rest from rfl]
        constructor
        · intro hs; exact Or.inr (ih.mp hs)
        · rintro (rfl | hm)
          · exact absurd rfl h
          · exact ih.mpr hm

theorem foldl_dictInsert_keys_nodup (items : List (String × List Rat)) :
    ∀ d : List (String × List Rat), (dictKeys d).Nodup →
      (dictKeys (items.foldl (fun d kv => dictInsert d kv.1 kv.2) d)).Nodup := by
  induction items with
  | nil => intro d h; exact h
  | cons kv rest ih =>
      intro d h
      exact ih _ (dictKeys_nodup_dictInsert h)

theorem get_all_plot_data_keys_nodup (m : MetricPluginManager) :
    (dictKeys m.get_all_plot_data).Nodup := by
  unfold MetricPluginManager.get_all_plot_data
  exact foldl_dictInsert_keys_nodup _ [] (by simp [dictKeys])

theorem mem_dictKeys_foldl_of_mem {k : String} {items : List (String × List Rat)} :
    ∀ d : List (String × List Rat),
      ((∃ v, (k, v) ∈ items) ∨ k ∈ dictKeys d) →
      k ∈ dictKeys (items.foldl (fun d kv => dictInsert d kv.1 kv.2) d) := by
  induction items with
  | nil =>
      intro d h
      rcases h with ⟨v, hv⟩ | h
      · cases hv
      · exact h
  | cons kv rest ih =>
      intro d h
      apply ih
      rcases h with ⟨v, hv⟩ | h
      · rcases List.mem_cons.mp hv with he | hm
        · right
          rw [← he]
          exact mem_dictKeys_dictInsert.mpr (Or.inl rfl)
        · exact Or.inl ⟨v, hm⟩
      · exact Or.inr (mem_dictKeys_dictInsert.mpr (Or.inr h))

theorem wer_key_mem_gapd {m : MetricPluginManager} {w : WERMetricParser}
    (hw : MetricParser.wer w ∈ m.parsers) :
    "WER" ∈ dictKeys m.get_all_plot_data := by
  unfold MetricPluginManager.get_all_plot_data
  apply mem_dictKeys_foldl_of_mem
  left
  refine ⟨w.wer_values, ?_⟩
  rw [List.mem_flatten]
  refine ⟨(MetricParser.wer w).get_plot_data, List.mem_map_of_mem _ hw, ?_⟩
  simp [MetricParser.get_plot_data, WERMetricParser.get_plot_data]

theorem noMatch_parse {p : MetricParser} {line : List Char}
    (h : p.matchesAny line = false) : p.parse line = .ok (none, p) := by
  cases p with
  | std q =>
      have hs : q.pattern.search (asciiLower line) = none := by
        simp only [MetricParser.matchesAny] at h
        exact Option.not_isSome_iff_eq_none.mp (by simp [h])
      simp [MetricParser.parse, StandardMetricParser.parse, hs]
  | wer q =>
      simp only [MetricParser.matchesAny, Bool.or_eq_false_iff] at h
      obtain ⟨⟨⟨h1, h2⟩, h3⟩, h4⟩ := h
      have e1 : werPat.search (asciiLower line) = none :=
        Option.not_isSome_iff_eq_none.mp (by simp [h1])
      have e2 : subPat.search (asciiLower line) = none :=
        Option.not_isSome_iff_eq_none.mp (by simp [h2])
      have e3 : delPat.search (asciiLower line) = none :=
        Option.not_isSome_iff_eq_none.mp (by simp [h3])
      have e4 : insPat.search (asciiLower line) = none :=
        Option.not_isSome_iff_eq_none.mp (by simp [h4])
      simp [MetricParser.parse, WERMetricParser.parse, matchFloat, e1, e2, e3, e4]

theorem parseParsers_no_match (line : List Char) :
    ∀ ps : List MetricParser, (∀ p ∈ ps, p.matchesAny line = false) →
      parseParsers line ps = .ok ([], ps) := by
  intro ps
  induction ps with
  | nil => intro _; rfl
  | cons p ps ih =>
      intro h
      have hp := noMatch_parse (h p (List.mem_cons_self _ _))
      simp [parseParsers, hp, ih (fun q hq => h q (List.mem_cons_of_mem _ hq))]

theorem werParse_no_primary {p : WERMetricParser} {line : List Char}
    (h : werPat.search (asciiLower line) = none) :
    p.parse line = .ok (none, p) := by
  obtain ⟨os, hs⟩ := matchFloat_digit_ok subPat rfl (asciiLower line)
  obtain ⟨od, hd⟩ := matchFloat_digit_ok delPat rfl (asciiLower line)
  obtain ⟨oi, hi⟩ := matchFloat_digit_ok insPat rfl (asciiLower line)
  have hw : matchFloat werPat (asciiLower line) = .ok none := by
    simp [matchFloat, h]
  simp [WERMetricParser.parse, hw, hs, hd, hi]

theorem werParse_preserves_bounds {p p' : WERMetricParser}
    {r : Option MetricResult} {line : List Char}
    (h : p.parse line = .ok (r, p'))
    (hs : p.substitutions.length ≤ p.wer_values.length)
    (hd : p.deletions.length ≤ p.wer_values.length)
    (hi : p.insertions.length ≤ p.wer_values.length) :
    p'.substitutions.length ≤ p'.wer_values.length
      ∧ p'.deletions.length ≤ p'.wer_values.length
      ∧ p'.insertions.length ≤ p'.wer_values.length := by
  unfold WERMetricParser.parse at h
  cases h1 : matchFloat werPat (asciiLower line) with
  | error e => rw [h1] at h; cases h
  | ok owe =>
  rw [h1] at h
  cases h2 : matchFloat subPat (asciiLower line) with
  | error e => rw [h2] at h; cases h
  | ok osub =>
  rw [h2] at h
  cases h3 : matchFloat delPat (asciiLower line) with
  | error e => rw [h3] at h; cases h
  | ok odel =>
  rw [h3] at h
  cases h4 : matchFloat insPat (asciiLower line) with
  | error e => rw [h4] at h; cases h
  | ok oins =>
  rw [h4] at h
  cases owe with
  | none =>
      simp only [Except.ok.injEq, Prod.mk.injEq] at h
      rw [← h.2]
      exact ⟨hs, hd, hi⟩
  | some w =>
      simp only [Except.ok.injEq, Prod.mk.injEq] at h
      rw [← h.2]
      refine ⟨?_, ?_, ?_⟩ <;>
        simp only [List.length_append, List.length_singleton] <;>
        cases osub <;> cases odel <;> cases oins <;>
        simp [Option.toList] <;> omega

theorem runWER_bounds :
    ∀ (lines : List (List Char)) (p p' : WERMetricParser),
      runWER p lines = .ok p' →
      p.substitutions.length ≤ p.wer_values.length →
      p.deletions.length ≤ p.wer_values.length →
      p.insertions.length ≤ p.wer_values.length →
      p'.substitutions.length ≤ p'.wer_values.length
        ∧ p'.deletions.length ≤ p'.wer_values.length
        ∧ p'.insertions.length ≤ p'.wer_values.length := by
  intro lines
  induction lines with
  | nil =>
      intro p p' h hs hd hi
      cases h
      exact ⟨hs, hd, hi⟩
  | cons line rest ih =>
      intro p p' h hs hd hi
      rw [runWER] at h
      cases hp : p.parse line with
      | error e => rw [hp] at h; cases h
      | ok rp =>
          rw [hp] at h
          obtain ⟨r, pmid⟩ := rp
          obtain ⟨bs, bd, bi⟩ := werParse_preserves_bounds hp hs hd hi
          exact ih pmid p' h bs bd bi

theorem watchStep_eq (st : WatcherState) (inp : CycleInput) :
    MLLogWatcher.watchStep st inp =
      (if !(MLLogWatcher.check_file_changes inp.fileRead st).2.buffer.isEmpty
           && MLLogWatcher.should_send_email
                (MLLogWatcher.check_file_changes inp.fileRead st).2 inp.now then
         if inp.sendOk then
           { (MLLogWatcher.check_file_changes inp.fileRead st).2 with
               buffer := [], last_email_time := inp.now }
         else (MLLogWatcher.check_file_changes inp.fileRead st).2
       else (MLLogWatcher.check_file_changes inp.fileRead st).2) := by
  simp only [MLLogWatcher.watchStep, MLLogWatcher.process_buffer]
  cases (MLLogWatcher.check_file_changes inp.fileRead st).1 <;> rfl

theorem check_file_changes_manager (fr : FileRead) (st : WatcherState) :
    (MLLogWatcher.check_file_changes fr st).2.manager = st.manager := by
  cases fr with
  | error e => rfl
  | ok content =>
      unfold MLLogWatcher.check_file_changes
      by_cases h : (content.drop st.last_position).isEmpty <;> simp [h]

theorem check_file_changes_buffer (fr : FileRead) (st : WatcherState) :
    ∃ t, (MLLogWatcher.check_file_changes fr st).2.buffer = st.buffer ++ t := by
  cases fr with
  | error e => exact ⟨[], by simp [MLLogWatcher.check_file_changes]⟩
  | ok content =>
      unfold MLLogWatcher.check_file_changes
      by_cases h : (content.drop st.last_position).isEmpty
      · exact ⟨[], by simp [h]⟩
      · exact ⟨[content.drop st.last_position], by simp [h]⟩

/-- C6: `poll` is idempotent when the file does not grow: for any file
content (or I/O error) and any watcher state, a second
`check_file_changes` against the same file returns nothing and leaves
the whole state — in particular the cursor `last_position` — exactly as
the first call left it. -/
theorem poll_idempotent_no_growth (fr : FileRead) (st : WatcherState) :
    MLLogWatcher.check_file_changes fr (MLLogWatcher.check_file_changes fr st).2
      = (none, (MLLogWatcher.check_file_changes fr st).2) := by
  cases fr with
  | error e => rfl
  | ok content =>
      unfold MLLogWatcher.check_file_changes
      by_cases h : (content.drop st.last_position).isEmpty
      · simp [h]
      · simp [h, List.drop_length]

/-- C7: an I/O error during `poll` yields "no new content" and an
unchanged state (cursor included); the error is absorbed inside
`check_file_changes` and never propagates. -/
theorem poll_io_error_soft (e : Unit) (st : WatcherState) :
    MLLogWatcher.check_file_changes (.error e) st = (none, st) := rfl

/-- C2 counterexample: on the line `"loss: ."` the default Loss pattern
matches with captured text `"."`, which Python's `float` rejects, so
`parse` raises `ValueError` instead of returning nothing. -/
theorem standardParse_malformed_capture_raises :
    lossPat.search (asciiLower "loss: .".toList) = some ['.']
      ∧ pyFloat ['.'] = none
      ∧ lossSMP.parse "loss: .".toList = .error .valueError :=
  ⟨rfl, rfl, rfl⟩

/-- C2 amended: a line whose pattern fails to match is a silent
no-match leaving the parser unchanged, but a matched line whose
captured text is not parseable as a number makes `parse` raise
`ValueError` — it is not treated as a no-match. -/
theorem standardParse_nomatch_silent_malformed_raises
    (p : StandardMetricParser) (line : List Char) :
    (p.pattern.search (asciiLower line) = none →
        p.parse line = .ok (none, p))
  ∧ (∀ g, p.pattern.search (asciiLower line) = some g → pyFloat g = none →
        p.parse line = .error .valueError) := by
  constructor
  · intro h
    simp [StandardMetricParser.parse, h]
  · intro g hg hf
    simp [StandardMetricParser.parse, hg, hf]

/-- Witness for the amended C2: both branches exercised at concrete
lines. -/
theorem standardParse_nomatch_silent_malformed_raises_witness :
    lossSMP.parse "epoch done".toList = .ok (none, lossSMP)
      ∧ lossSMP.parse "loss: ..".toList = .error .valueError :=
  ⟨(standardParse_nomatch_silent_malformed_raises lossSMP "epoch done".toList).1 rfl,
   (standardParse_nomatch_silent_malformed_raises lossSMP "loss: ..".toList).2
     ['.', '.'] rfl rfl⟩

/-- C5: whenever a `StandardMetricParser` successfully matches a line,
the new series is the old series with exactly the parsed value appended
at the end, the parser is otherwise unchanged, and the appended value
is the one carried by the returned `MetricResult`, obtained by `float`
from the captured text. -/
theorem standardParse_match_appends_value
    (p : StandardMetricParser) (line : List Char) (r : MetricResult)
    (p' : StandardMetricParser) (h : p.parse line = .ok (some r, p')) :
    p'.values = p.values ++ [r.value]
      ∧ p'.metric_name = p.metric_name
      ∧ p'.pattern = p.pattern
      ∧ r.name = p.metric_name
      ∧ ∃ g, p.pattern.search (asciiLower line) = some g
          ∧ pyFloat g = some r.value := by
  cases hs : p.pattern.search (asciiLower line) with
  | none => simp [StandardMetricParser.parse, hs] at h
  | some g =>
      cases hf : pyFloat g with
      | none => simp [StandardMetricParser.parse, hs, hf] at h
      | some v =>
          simp only [StandardMetricParser.parse, hs, hf, Except.ok.injEq,
            Prod.mk.injEq, Option.some.injEq] at h
          obtain ⟨hr, hp⟩ := h
          subst hr
          subst hp
          exact ⟨rfl, rfl, rfl, rfl, g, rfl, hf⟩

/-- Witness for C5: the §8 scenario line `"epoch 1 loss: 0.532"`. -/
theorem standardParse_match_appends_value_witness :
    lossSMP.parse "epoch 1 loss: 0.532".toList
        = .ok (some { name := "Loss", value := 532/1000 },
               { metric_name := "Loss", pattern := lossPat, values := [532/1000] })
      ∧ ({ metric_name := "Loss", pattern := lossPat,
           values := [532/1000] } : StandardMetricParser).values
          = lossSMP.values
              ++ [({ name := "Loss", value := 532/1000 } : MetricResult).value] :=
  ⟨by with_unfolding_all rfl,
   (standardParse_match_appends_value lossSMP "epoch 1 loss: 0.532".toList
      _ _ (by with_unfolding_all rfl)).1⟩

/-- C4: a line matching no pattern of any registered parser makes
`parse_line` return the empty result list and leaves the registry —
every parser and its series — exactly as it was. -/
theorem dispatch_no_match_no_change (m : MetricPluginManager) (line : List Char)
    (h : ∀ p ∈ m.parsers, p.matchesAny line = false) :
    m.parse_line line = .ok ([], m) := by
  unfold MetricPluginManager.parse_line
  rw [parseParsers_no_match line m.parsers h]

/-- Witness for C4: the default registry and the line
`"hello world"`, which no configured pattern matches. -/
theorem dispatch_no_match_no_change_witness :
    (∀ p ∈ ModularMLLogParser.init.plugin_manager.parsers,
        p.matchesAny "hello world".toList = false)
      ∧ ModularMLLogParser.init.plugin_manager.parse_line "hello world".toList
          = .ok ([], ModularMLLogParser.init.plugin_manager) :=
  ⟨by decide,
   dispatch_no_match_no_change ModularMLLogParser.init.plugin_manager
     "hello world".toList (by decide)⟩

/-- C10: (1) when the primary WER pattern does not match a line, the
composite parser appends to no series at all — even if sub-count
patterns match — and returns `None` with unchanged state; (2) hence
after any sequence of `parse` calls starting from a fresh
`WERMetricParser`, every sub-count series is at most as long as the
primary WER series. -/
theorem wer_subcounts_bounded_by_primary :
    (∀ (p : WERMetricParser) (line : List Char),
        werPat.search (asciiLower line) = none →
        p.parse line = .ok (none, p))
  ∧ (∀ (lines : List (List Char)) (p' : WERMetricParser),
        runWER WERMetricParser.init lines = .ok p' →
        p'.substitutions.length ≤ p'.wer_values.length
          ∧ p'.deletions.length ≤ p'.wer_values.length
          ∧ p'.insertions.length ≤ p'.wer_values.length) :=
  ⟨fun _ _ h => werParse_no_primary h,
   fun lines p' h => runWER_bounds lines WERMetricParser.init p' h
     (Nat.le_refl 0) (Nat.le_refl 0) (Nat.le_refl 0)⟩

/-- Witness for C10: a sub-count-only line leaves a fresh parser
untouched, and a run over one full WER line satisfies the length
bounds. -/
theorem wer_subcounts_bounded_by_primary_witness :
    (werPat.search (asciiLower "substitutions: 3".toList) = none
      ∧ WERMetricParser.init.parse "substitutions: 3".toList
          = .ok (none, WERMetricParser.init))
  ∧ (runWER WERMetricParser.init ["wer: 0.2 substitutions: 3".toList]
        = .ok { wer_values := [mkRat 1 5], substitutions := [3],
                deletions := [], insertions := [] }
      ∧ ({ wer_values := [mkRat 1 5], substitutions := [3], deletions := [],
           insertions := [] } : WERMetricParser).substitutions.length
          ≤ ({ wer_values := [mkRat 1 5], substitutions := [3], deletions := [],
               insertions := [] } : WERMetricParser).wer_values.length) :=
  ⟨⟨rfl, wer_subcounts_bounded_by_primary.1 WERMetricParser.init
      "substitutions: 3".toList rfl⟩,
   ⟨by with_unfolding_all rfl,
    (wer_subcounts_bounded_by_primary.2 ["wer: 0.2 substitutions: 3".toList]
      { wer_values := [mkRat 1 5], substitutions := [3], deletions := [],
        insertions := [] } (by with_unfolding_all rfl)).1⟩⟩

/-- C9: in the e-mail summary table, every metric with a non-empty
series appears with "current" equal to the last element of its series
and "best" equal to the minimum when the (lowercased) name contains
"loss" and the maximum otherwise; a metric with an empty series is
omitted from the table entirely. -/
theorem email_summary_rows (m : MetricPluginManager) (name : String)
    (vs : List Rat) (hmem : (name, vs) ∈ m.get_all_plot_data) :
    (∀ c, vs.getLast? = some c →
        (name, c,
          if strContains "loss".toList (asciiLower name.toList)
          then pyMin vs else pyMax vs)
          ∈ emailMetricsSummary m.get_all_plot_data)
  ∧ (vs = [] →
        ∀ c b, (name, c, b) ∉ emailMetricsSummary m.get_all_plot_data) := by
  constructor
  · intro c hc
    apply List.mem_filterMap.mpr
    exact ⟨(name, vs), hmem, by simp [hc, bestValue]⟩
  · rintro rfl c b hin
    obtain ⟨⟨n', vs'⟩, hmem', hf⟩ := List.mem_filterMap.mp hin
    cases hl : vs'.getLast? with
    | none => rw [hl] at hf; cases hf
    | some cur =>
        rw [hl] at hf
        have h1 := Option.some.inj hf
        have hn : n' = name := congrArg (fun x => x.1) h1
        subst hn
        have hv : vs' = [] :=
          dict_nodup_values_eq (get_all_plot_data_keys_nodup m) hmem' hmem
        rw [hv] at hl
        cases hl

/-- Witness for C9: the §8 scenario series; "Loss" gets `min` as best
and the last element as current, in the summary of a registry holding
those series. -/
theorem email_summary_rows_witness :
    (("Loss", ([9/10, 2/5, 3/5] : List Rat))
        ∈ summaryDemoManager.get_all_plot_data)
      ∧ ([(9:Rat)/10, 2/5, 3/5].getLast? = some (3/5))
      ∧ ("Loss", (3/5 : Rat),
          if strContains "loss".toList (asciiLower "Loss".toList)
          then pyMin [9/10, 2/5, 3/5] else pyMax [9/10, 2/5, 3/5])
          ∈ emailMetricsSummary summaryDemoManager.get_all_plot_data :=
  ⟨by with_unfolding_all decide, by with_unfolding_all rfl,
   (email_summary_rows summaryDemoManager "Loss" [9/10, 2/5, 3/5]
      (by with_unfolding_all decide)).1 (3/5) (by with_unfolding_all rfl)⟩

/-- C3 counterexample: in a fresh `ModularMLLogParser` the registered
WER parser's primary series is empty, yet the plot data still carries
the `WER` key (mapped to the empty series), so
`generate_training_plots` writes and returns the WER plot path as well
— not only the primary path as the claim states. -/
theorem wer_plot_written_with_empty_series :
    MetricParser.wer WERMetricParser.init
        ∈ ModularMLLogParser.init.plugin_manager.parsers
      ∧ WERMetricParser.init.wer_values = []
      ∧ ModularMLLogParser.init.plugin_manager.get_all_plot_data.lookup "WER"
          = some []
      ∧ ModularMLLogParser.init.generate_training_plots "training_plots"
          = ["training_plots/main_metrics.png",
             "training_plots/wer_progress.png"] :=
  ⟨by decide, rfl, by decide, by decide⟩

/-- C3 amended: `generate_training_plots` returns the WER plot path in
addition to the primary one iff the merged plot data contains the
`WER` key — which holds whenever a WER parser is registered, even when
its series is empty (the emptiness of the series is not consulted). -/
theorem wer_plot_iff_key_present (mp : ModularMLLogParser) (dir : String) :
    (mp.generate_training_plots dir
        = [dir ++ "/main_metrics.png", dir ++ "/wer_progress.png"]
      ↔ "WER" ∈ dictKeys mp.plugin_manager.get_all_plot_data)
  ∧ (∀ w : WERMetricParser,
      MetricParser.wer w ∈ mp.plugin_manager.parsers →
      mp.generate_training_plots dir
        = [dir ++ "/main_metrics.png", dir ++ "/wer_progress.png"]) := by
  have hkey := @lookup_isSome_iff_mem_dictKeys
    mp.plugin_manager.get_all_plot_data "WER"
  constructor
  · unfold ModularMLLogParser.generate_training_plots
    by_cases h : (mp.plugin_manager.get_all_plot_data.lookup "WER").isSome
    · simp only [h, if_true]
      exact iff_of_true trivial (hkey.mp h)
    · simp only [h, Bool.false_eq_true, if_false]
      constructor
      · intro he
        exact absurd (congrArg List.length he) (by simp)
      · intro hmem
        exact absurd (hkey.mpr hmem) h
  · intro w hw
    have hm : "WER" ∈ dictKeys mp.plugin_manager.get_all_plot_data :=
      wer_key_mem_gapd hw
    unfold ModularMLLogParser.generate_training_plots
    rw [if_pos (hkey.mpr hm)]

/-- Witness for the amended C3: the default parser set-up. -/
theorem wer_plot_iff_key_present_witness :
    MetricParser.wer WERMetricParser.init
        ∈ ModularMLLogParser.init.plugin_manager.parsers
      ∧ ModularMLLogParser.init.generate_training_plots "plots"
          = ["plots/main_metrics.png", "plots/wer_progress.png"] :=
  ⟨by decide,
   (wer_plot_iff_key_present ModularMLLogParser.init "plots").2
     WERMetricParser.init (by decide)⟩

/-- C8: in any loop cycle the poll phase only appends to the pending
buffer; the buffer is emptied exactly by a delivery attempt (non-empty
buffer and report due) that succeeds; a failed attempt or a cycle with
no attempt leaves the post-poll buffer unchanged; and a non-empty
buffer can only become empty through a due, successful delivery. -/
theorem buffer_cleared_only_on_successful_send (st : WatcherState)
    (inp : CycleInput) :
    (∃ t, (MLLogWatcher.check_file_changes inp.fileRead st).2.buffer
        = st.buffer ++ t)
  ∧ (((MLLogWatcher.check_file_changes inp.fileRead st).2.buffer ≠ []
        ∧ MLLogWatcher.should_send_email
            (MLLogWatcher.check_file_changes inp.fileRead st).2 inp.now = true
        ∧ inp.sendOk = true) →
      (MLLogWatcher.watchStep st inp).buffer = [])
  ∧ (((MLLogWatcher.check_file_changes inp.fileRead st).2.buffer ≠ []
        ∧ MLLogWatcher.should_send_email
            (MLLogWatcher.check_file_changes inp.fileRead st).2 inp.now = true
        ∧ inp.sendOk = false) →
      (MLLogWatcher.watchStep st inp).buffer
        = (MLLogWatcher.check_file_changes inp.fileRead st).2.buffer)
  ∧ ((¬((MLLogWatcher.check_file_changes inp.fileRead st).2.buffer ≠ []
        ∧ MLLogWatcher.should_send_email
            (MLLogWatcher.check_file_changes inp.fileRead st).2 inp.now = true)) →
      (MLLogWatcher.watchStep st inp).buffer
        = (MLLogWatcher.check_file_changes inp.fileRead st).2.buffer)
  ∧ ((st.buffer ≠ [] ∧ (MLLogWatcher.watchStep st inp).buffer = []) →
      (MLLogWatcher.should_send_email
          (MLLogWatcher.check_file_changes inp.fileRead st).2 inp.now = true
        ∧ inp.sendOk = true)) := by
  obtain ⟨t, ht⟩ := check_file_changes_buffer inp.fileRead st
  rw [watchStep_eq]
  set s1 : WatcherState := (MLLogWatcher.check_file_changes inp.fileRead st).2
    with hs1
  by_cases hb : s1.buffer = []
  · have hcond : (!s1.buffer.isEmpty
        && MLLogWatcher.should_send_email s1 inp.now) = false := by
      simp [hb]
    rw [if_neg (by simp [hcond])]
    refine ⟨⟨t, ht⟩, ?_, ?_, ?_, ?_⟩
    · rintro ⟨hne, -, -⟩; exact absurd hb hne
    · rintro ⟨hne, -, -⟩; exact absurd hb hne
    · intro _; rfl
    · rintro ⟨hstb, hempty⟩
      rw [ht] at hb
      exact absurd (List.append_eq_nil.mp hb).1 hstb
  · by_cases hsend : MLLogWatcher.should_send_email s1 inp.now = true
    · have hcond : (!s1.buffer.isEmpty
          && MLLogWatcher.should_send_email s1 inp.now) = true := by
        simp [List.isEmpty_iff, hb, hsend]
      rw [if_pos hcond]
      by_cases hok : inp.sendOk = true
      · rw [if_pos hok]
        refine ⟨⟨t, ht⟩, ?_, ?_, ?_, ?_⟩
        · intro _; rfl
        · rintro ⟨-, -, hfalse⟩; rw [hok] at hfalse; cases hfalse
        · intro hno; exact absurd ⟨hb, hsend⟩ hno
        · intro _; exact ⟨hsend, hok⟩
      · rw [if_neg hok]
        refine ⟨⟨t, ht⟩, ?_, ?_, ?_, ?_⟩
        · rintro ⟨-, -, htrue⟩; exact absurd htrue hok
        · intro _; rfl
        · intro hno; exact absurd ⟨hb, hsend⟩ hno
        · rintro ⟨-, hempty⟩; exact absurd hempty hb
    · have hcond : (!s1.buffer.isEmpty
          && MLLogWatcher.should_send_email s1 inp.now) = false := by
        rw [Bool.not_eq_true] at hsend
        simp [hsend]
      rw [if_neg (by simp [hcond])]
      refine ⟨⟨t, ht⟩, ?_, ?_, ?_, ?_⟩
      · rintro ⟨-, hs, -⟩; exact absurd hs hsend
      · rintro ⟨-, hs, -⟩; exact absurd hs hsend
      · intro _; rfl
      · rintro ⟨-, hempty⟩; exact absurd hempty hb

/-- Witness for C8: a cycle with a pending buffered line, a due report
and a successful delivery clears the buffer. -/
theorem buffer_cleared_only_on_successful_send_witness :
    ((MLLogWatcher.check_file_changes dueCycleInput.fileRead
        dueWatcherState).2.buffer ≠ []
      ∧ MLLogWatcher.should_send_email
          (MLLogWatcher.check_file_changes dueCycleInput.fileRead
            dueWatcherState).2 dueCycleInput.now = true
      ∧ dueCycleInput.sendOk = true)
  ∧ (MLLogWatcher.watchStep dueWatcherState dueCycleInput).buffer = [] :=
  ⟨⟨by with_unfolding_all decide, by with_unfolding_all rfl, rfl⟩,
   (buffer_cleared_only_on_successful_send dueWatcherState dueCycleInput).2.1
     ⟨by with_unfolding_all decide, by with_unfolding_all rfl, rfl⟩⟩

/-- C1 (code bug): the main loop never dispatches polled content to the
parser registry.  `process_buffer` is a `pass` stub that
`ModularMLLogWatcher` never overrides, and nothing in `watch` calls
`parse_line`, so a `watchStep` leaves the registry untouched in every
cycle; concretely, a cycle that polls `"epoch 1 loss: 0.532"` appends
it to the pending buffer but updates no series, although dispatching
that very line to the registry would produce a result and grow the
Loss series. -/
theorem watch_loop_never_dispatches :
    (∀ (st : WatcherState) (inp : CycleInput),
        (MLLogWatcher.watchStep st inp).manager = st.manager)
  ∧ (MLLogWatcher.watchStep freshWatcherState lossCycleInput).buffer
      = ["epoch 1 loss: 0.532".toList]
  ∧ (MLLogWatcher.watchStep freshWatcherState lossCycleInput).manager
      = freshWatcherState.manager
  ∧ (∃ rs mgr',
      freshWatcherState.manager.parse_line "epoch 1 loss: 0.532".toList
        = .ok (rs, mgr')
      ∧ rs ≠ [] ∧ mgr' ≠ freshWatcherState.manager) := by
  refine ⟨?_, ?_, ?_, ?_⟩
  · intro st inp
    rw [watchStep_eq]
    split
    · split
      · exact check_file_changes_manager inp.fileRead st
      · exact check_file_changes_manager inp.fileRead st
    · exact check_file_changes_manager inp.fileRead st
  · with_unfolding_all rfl
  · with_unfolding_all rfl
  · exact ⟨_, _, by with_unfolding_all rfl,
      by with_unfolding_all decide, by with_unfolding_all decide⟩
